import Mathlib

/-!
# TMS6100 Emulator — verification of the protocol state machine

Shallow embedding of `src/Firmware/tms6100/main.c` (TMS6100 PHROM emulator for
the TMS5220 VSP).  The two AVR interrupt service routines are modelled as pure
functions from the device state (the global `tms6100` struct) to a new state
paired with the list of operations performed on the shared ADD8 data line.

* `ISR(TMS6100_M0_INT_VECT)`  (falling/leading edge of M0, READ DATA command)
  is modelled by `m0ISR`.
* `ISR(TMS6100_M1_INT_VECT)`  (rising edge of M1, LOAD ADDRESS command)
  is modelled by `m1ISR`; the four address-bus pin samples are parameters.

The PHROM data table (`phromData`, included from a ROM image header, external
to the core) is modelled as an arbitrary function `read : Nat → Nat`, and the
configured bank (`PHROM_BANK`) as a parameter `phromBank : Nat`.

Machine integers: `address` and `bankSelectNumber` are `uint32_t` in the C
source, so the one place they are incremented uses an explicit `% 2^32`;
`loadAddressNibble`, `currentBit` are `uint8_t`, so their increments use
`% 2^8`.  Everything else either cannot overflow or is a flag.
-/

/-- Wrap-around modulus of the C `uint32_t` fields. -/
def UINT32_MOD : Nat := 2 ^ 32

/-- Wrap-around modulus of the C `uint8_t` fields. -/
def UINT8_MOD : Nat := 2 ^ 8

/-- The global `volatile struct tms6100State` of `main.c`.
`FALSE`/`TRUE` flags become `Bool`. -/
structure Tms6100State where
  /-- `uint32_t address` — the current address the ROM is pointing to. -/
  address : Nat
  /-- `uint32_t bankSelectNumber` — the chip identifier sent by the host. -/
  bankSelectNumber : Nat
  /-- `uint8_t loadAddressNibble` — position of the next expected address nibble. -/
  loadAddressNibble : Nat
  /-- `uint8_t validAddressLoadedFlag` — a valid address has been loaded. -/
  validAddressLoadedFlag : Bool
  /-- `uint8_t readDataActive` — a read data command is active. -/
  readDataActive : Bool
  /-- `uint8_t currentBit` — current bit of data to be transmitted. -/
  currentBit : Nat
  /-- `uint8_t currentByte` — the current byte to transmit. -/
  currentByte : Nat
  /-- `uint8_t add8InputFlag` — ADD8 is an input (released) when true, an
  output (driven) when false. -/
  add8InputFlag : Bool
  /-- `uint8_t bankActiveFlag` — this PHROM's bank is active. -/
  bankActiveFlag : Bool
  deriving Repr, DecidableEq

/-- Operations performed by a handler on the shared ADD8 data line
(`TMS6100_ADD8_DDR` / `TMS6100_ADD8_PORT`), in program order. -/
inductive BusEvent where
  /-- `TMS6100_ADD8_DDR |= TMS6100_ADD8` — switch ADD8 to driven output. -/
  | setAdd8Output : BusEvent
  /-- `TMS6100_ADD8_DDR &= ~TMS6100_ADD8; TMS6100_ADD8_PORT &= ~TMS6100_ADD8`
  — release ADD8 to input / tri-state. -/
  | setAdd8Input : BusEvent
  /-- Drive the data bit value onto the ADD8 pin. -/
  | driveBit : Bool → BusEvent
  deriving Repr, DecidableEq

/-- The state established by `initialiseHardware()` (`bankSelectNumber` is a
zero-initialised global the function does not touch). -/
def initialState : Tms6100State :=
  { address := 0
    bankSelectNumber := 0
    loadAddressNibble := 0
    validAddressLoadedFlag := false
    readDataActive := false
    currentBit := 0
    currentByte := 0
    add8InputFlag := true
    bankActiveFlag := false }

/-- `ISR(TMS6100_M0_INT_VECT)` — READ DATA command handler.
`phromBank` is the `PHROM_BANK` constant, `read` the `phromData` table
(`pgm_read_byte(&(phromData[localAddress]))`).  Returns the new state and the
ADD8 bus operations performed, in order. -/
def m0ISR (phromBank : Nat) (read : Nat → Nat) (s : Tms6100State) :
    Tms6100State × List BusEvent :=
  if s.readDataActive then
    -- ADD8 direction management: output iff this PHROM's bank is active
    let dirStep : Tms6100State × List BusEvent :=
      if s.bankActiveFlag then
        if s.add8InputFlag then
          ({ s with add8InputFlag := false }, [BusEvent.setAdd8Output])
        else (s, [])
      else
        if s.add8InputFlag = false then
          ({ s with add8InputFlag := true }, [BusEvent.setAdd8Input])
        else (s, [])
    let s1 := dirStep.1
    -- If this PHROM's bank is active, write data
    let driveEvents : List BusEvent :=
      if s1.bankActiveFlag then
        [BusEvent.driveBit (s1.currentByte &&& (1 <<< s1.currentBit) != 0)]
      else []
    -- Point to the next bit
    let s2 := { s1 with currentBit := (s1.currentBit + 1) % UINT8_MOD }
    -- End of current byte?
    let s3 :=
      if s2.currentBit > 7 then
        let s2a := { s2 with currentBit := 0
                             address := (s2.address + 1) % UINT32_MOD }
        let currentBank := (s2a.address &&& 0x3C000) >>> 14
        let localAddress := s2a.address &&& 0x3FFF
        if currentBank = phromBank then
          { s2a with currentByte := read localAddress, bankActiveFlag := true }
        else
          { s2a with currentByte := 0xFF, bankActiveFlag := false }
      else s2
    (s3, dirStep.2 ++ driveEvents)
  else
    if s.validAddressLoadedFlag = false then
      -- 'dummy' read: reset the TMS6100 to a known state
      ({ s with address := 0, loadAddressNibble := 0 }, [])
    else
      -- a 'real' READ DATA command: start the transfer session
      let s1 := { s with readDataActive := true }
      let currentBank := (s1.address &&& 0x3C000) >>> 14
      let localAddress := s1.address &&& 0x3FFF
      if currentBank = phromBank then
        ({ s1 with currentByte := read localAddress, currentBit := 0
                   bankActiveFlag := true }, [])
      else
        ({ s1 with currentByte := 0xFF, currentBit := 0
                   bankActiveFlag := false }, [])

/-- Nibble-store step of the LOAD ADDRESS handler: the five sequential
`if (tms6100.loadAddressNibble == k) tms6100.address |= addressNibble << 4*k;`
statements of `ISR(TMS6100_M1_INT_VECT)` (these conditions are mutually
exclusive, so the sequence is an if-else chain). -/
def storeNibble (idx addr nib : Nat) : Nat :=
  if idx = 0 then addr ||| (nib <<< 0)
  else if idx = 1 then addr ||| (nib <<< 4)
  else if idx = 2 then addr ||| (nib <<< 8)
  else if idx = 3 then addr ||| (nib <<< 12)
  else if idx = 4 then addr ||| (nib <<< 16)
  else addr

/-- `ISR(TMS6100_M1_INT_VECT)` — LOAD ADDRESS command handler.
`a1 a2 a4 a8` are the sampled levels of the ADD1/ADD2/ADD4/ADD8 pins. -/
def m1ISR (a1 a2 a4 a8 : Bool) (s : Tms6100State) :
    Tms6100State × List BusEvent :=
  -- Cancel the read data command
  let s1 := { s with readDataActive := false, bankActiveFlag := false }
  -- Set the ADD8 bus pin to input mode
  let relStep : Tms6100State × List BusEvent :=
    if s1.add8InputFlag = false then
      ({ s1 with add8InputFlag := true }, [BusEvent.setAdd8Input])
    else (s1, [])
  let s2 := relStep.1
  -- Read the nibble from the address bus
  let addressNibble : Nat :=
    (if a1 then 1 else 0) + (if a2 then 2 else 0) +
    (if a4 then 4 else 0) + (if a8 then 8 else 0)
  -- If this is the first nibble of a new 20-bit address, clear the address register
  let s3 := if s2.loadAddressNibble = 0 then { s2 with address := 0 } else s2
  -- Store the address nibble in the correct position of the 20-bit address register
  let s4 := { s3 with address := storeNibble s3.loadAddressNibble s3.address addressNibble }
  -- Increment the current address register nibble pointer
  let s5 := { s4 with loadAddressNibble := (s4.loadAddressNibble + 1) % UINT8_MOD }
  -- Was the received nibble the 5th and final nibble of an address?
  if s5.loadAddressNibble > 4 then
    ({ s5 with validAddressLoadedFlag := true
               loadAddressNibble := 0
               bankSelectNumber := (s5.address &&& 0x3C000) >>> 14
               address := s5.address &&& 0x3FFFF }, relStep.2)
  else
    ({ s5 with validAddressLoadedFlag := false }, relStep.2)

/-- Feed one LOAD ADDRESS event carrying the 4-bit nibble `n` (its four bits
become the four address-bus pin levels); result state only. -/
def m1Load (n : Nat) (s : Tms6100State) : Tms6100State :=
  (m1ISR (n.testBit 0) (n.testBit 1) (n.testBit 2) (n.testBit 3) s).1

/-- Feed the five nibbles of `ns` in order via LOAD ADDRESS events. -/
def m1LoadSeq (ns : List Nat) (s : Tms6100State) : Tms6100State :=
  ns.foldl (fun t n => m1Load n t) s

/-- Run `k` successive READ DATA events, collecting all bus operations. -/
def m0Pulses (phromBank : Nat) (read : Nat → Nat) :
    Nat → Tms6100State → Tms6100State × List BusEvent
  | 0, s => (s, [])
  | k + 1, s =>
    let p := m0ISR phromBank read s
    let rest := m0Pulses phromBank read k p.1
    (rest.1, p.2 ++ rest.2)

/-- The data-bit values driven onto ADD8 within a list of bus operations,
in order. -/
def driveBits (evs : List BusEvent) : List Bool :=
  evs.filterMap (fun e => match e with
    | BusEvent.driveBit b => some b
    | _ => none)

/-- PHROM data table used to instantiate the external `phromData` collaborator
in concrete counterexamples and witnesses. -/
def sampleRead : Nat → Nat := fun i => (7 * i + 90) % 256

/-- Concrete mid-session state for claim C5: in-bank transfer about to emit the
8th bit of the byte at the last address of bank 0 (the next address crosses
into bank 1). -/
def c5CexState : Tms6100State :=
  { address := 0x3FFF
    bankSelectNumber := 0
    loadAddressNibble := 0
    validAddressLoadedFlag := true
    readDataActive := true
    currentBit := 7
    currentByte := 0xAB
    add8InputFlag := false
    bankActiveFlag := true }

/-- Concrete state with a valid loaded address (offset 5, bank 0), no session
active, bus released. -/
def c3WitState : Tms6100State :=
  { address := 5
    bankSelectNumber := 0
    loadAddressNibble := 0
    validAddressLoadedFlag := true
    readDataActive := false
    currentBit := 0
    currentByte := 0
    add8InputFlag := true
    bankActiveFlag := false }

/-- Concrete state with a valid loaded address in bank 5 (address `0x14000`),
no session active, bus released; used against a device configured for bank 2. -/
def c6WitState : Tms6100State :=
  { address := 0x14000
    bankSelectNumber := 5
    loadAddressNibble := 0
    validAddressLoadedFlag := true
    readDataActive := false
    currentBit := 0
    currentByte := 0
    add8InputFlag := true
    bankActiveFlag := false }

/-- Concrete in-bank mid-session state at the last byte of the 18-bit address
space (`address = 0x3FFFF`), about to emit the 8th bit of its byte. -/
def c7WitState : Tms6100State :=
  { address := 0x3FFFF
    bankSelectNumber := 0
    loadAddressNibble := 0
    validAddressLoadedFlag := true
    readDataActive := true
    currentBit := 7
    currentByte := 0
    add8InputFlag := false
    bankActiveFlag := true }

/-!
## Helper lemmas
-/

lemma nibble_testBit_sum (n : Nat) (h : n < 16) :
    ((if n.testBit 0 then 1 else 0) + (if n.testBit 1 then 2 else 0) +
     (if n.testBit 2 then 4 else 0) + (if n.testBit 3 then 8 else 0) : Nat) = n := by
  interval_cases n <;> decide

lemma nibble_sum_mod (n : Nat) (h : n < 16) :
    ((if n % 2 = 1 then 1 else 0) + (if n.testBit 1 = true then 2 else 0) +
     (if n.testBit 2 = true then 4 else 0) + (if n.testBit 3 = true then 8 else 0) : Nat)
      = n := by
  interval_cases n <;> decide

lemma m1Load_idx0 (n : Nat) (hn : n < 16) (s : Tms6100State)
    (h : s.loadAddressNibble = 0) :
    m1Load n s =
      { s with readDataActive := false, bankActiveFlag := false,
               add8InputFlag := true, address := n,
               loadAddressNibble := 1, validAddressLoadedFlag := false } := by
  obtain ⟨ad, bs, ln, vf, rd, cb, cB, ai, ba⟩ := s
  simp only [Tms6100State.loadAddressNibble] at h
  subst h
  cases ai <;>
    simp [m1Load, m1ISR, storeNibble, nibble_sum_mod n hn, UINT8_MOD]

lemma m1Load_idx1 (n : Nat) (hn : n < 16) (s : Tms6100State)
    (h : s.loadAddressNibble = 1) :
    m1Load n s =
      { s with readDataActive := false, bankActiveFlag := false,
               add8InputFlag := true, address := s.address ||| (n <<< 4),
               loadAddressNibble := 2, validAddressLoadedFlag := false } := by
  obtain ⟨ad, bs, ln, vf, rd, cb, cB, ai, ba⟩ := s
  simp only [Tms6100State.loadAddressNibble] at h
  subst h
  cases ai <;>
    simp [m1Load, m1ISR, storeNibble, nibble_sum_mod n hn, UINT8_MOD]

lemma m1Load_idx2 (n : Nat) (hn : n < 16) (s : Tms6100State)
    (h : s.loadAddressNibble = 2) :
    m1Load n s =
      { s with readDataActive := false, bankActiveFlag := false,
               add8InputFlag := true, address := s.address ||| (n <<< 8),
               loadAddressNibble := 3, validAddressLoadedFlag := false } := by
  obtain ⟨ad, bs, ln, vf, rd, cb, cB, ai, ba⟩ := s
  simp only [Tms6100State.loadAddressNibble] at h
  subst h
  cases ai <;>
    simp [m1Load, m1ISR, storeNibble, nibble_sum_mod n hn, UINT8_MOD]

lemma m1Load_idx3 (n : Nat) (hn : n < 16) (s : Tms6100State)
    (h : s.loadAddressNibble = 3) :
    m1Load n s =
      { s with readDataActive := false, bankActiveFlag := false,
               add8InputFlag := true, address := s.address ||| (n <<< 12),
               loadAddressNibble := 4, validAddressLoadedFlag := false } := by
  obtain ⟨ad, bs, ln, vf, rd, cb, cB, ai, ba⟩ := s
  simp only [Tms6100State.loadAddressNibble] at h
  subst h
  cases ai <;>
    simp [m1Load, m1ISR, storeNibble, nibble_sum_mod n hn, UINT8_MOD]

lemma m1Load_idx4 (n : Nat) (hn : n < 16) (s : Tms6100State)
    (h : s.loadAddressNibble = 4) :
    m1Load n s =
      { s with readDataActive := false, bankActiveFlag := false,
               add8InputFlag := true,
               validAddressLoadedFlag := true, loadAddressNibble := 0,
               bankSelectNumber := ((s.address ||| (n <<< 16)) &&& 0x3C000) >>> 14,
               address := (s.address ||| (n <<< 16)) &&& 0x3FFFF } := by
  obtain ⟨ad, bs, ln, vf, rd, cb, cB, ai, ba⟩ := s
  simp only [Tms6100State.loadAddressNibble] at h
  subst h
  cases ai <;>
    simp [m1Load, m1ISR, storeNibble, nibble_sum_mod n hn, UINT8_MOD]

lemma and_mask_eq_mod (a n : Nat) : a &&& (2 ^ n - 1) = a % 2 ^ n := by
  apply Nat.eq_of_testBit_eq
  intro i
  rw [Nat.testBit_and, Nat.testBit_mod_two_pow]
  rcases Nat.lt_or_ge i n with h | h
  · simp [Nat.testBit_two_pow_sub_one, h]
  · simp [Nat.testBit_two_pow_sub_one, Nat.not_lt.2 h, h]

lemma and_3FFFF_eq_mod (a : Nat) : a &&& 0x3FFFF = a % 2 ^ 18 := by
  have h := and_mask_eq_mod a 18
  norm_num at h
  exact h

lemma bank_bits (a : Nat) : (a &&& 0x3C000) >>> 14 = a / 2 ^ 14 % 2 ^ 4 := by
  apply Nat.eq_of_testBit_eq
  intro i
  rw [Nat.testBit_shiftRight, Nat.testBit_and]
  rw [← Nat.shiftRight_eq_div_pow, Nat.testBit_mod_two_pow, Nat.testBit_shiftRight]
  rcases Nat.lt_or_ge i 4 with h | h
  · interval_cases i <;> simp [Nat.testBit]
  · have h1 : Nat.testBit 0x3C000 (14 + i) = false := by
      apply Nat.testBit_lt_two_pow
      calc (0x3C000 : Nat) < 2 ^ 18 := by norm_num
      _ ≤ 2 ^ (14 + i) := Nat.pow_le_pow_right (by norm_num) (by omega)
    simp [h1, Nat.not_lt.2 h]

lemma driveBit_val (a i : Nat) : (a &&& (1 <<< i) != 0) = a.testBit i := by
  have h : (1 : Nat) <<< i = 2 ^ i := by simp [Nat.shiftLeft_eq]
  rw [h, Nat.and_two_pow]
  cases hb : a.testBit i <;> simp [hb]

lemma driveBit_val128 (a : Nat) : (a &&& 128 != 0) = a.testBit 7 :=
  driveBit_val a 7

lemma m0_start (b : Nat) (r : Nat → Nat) (s : Tms6100State)
    (h1 : s.readDataActive = false) (h2 : s.validAddressLoadedFlag = true) :
    m0ISR b r s =
      (if (s.address &&& 0x3C000) >>> 14 = b then
        { s with readDataActive := true, currentByte := r (s.address &&& 0x3FFF),
                 currentBit := 0, bankActiveFlag := true }
       else
        { s with readDataActive := true, currentByte := 0xFF,
                 currentBit := 0, bankActiveFlag := false }, []) := by
  obtain ⟨ad, bs, ln, vf, rd, cb, cB, ai, ba⟩ := s
  simp only [Tms6100State.readDataActive] at h1
  simp only [Tms6100State.validAddressLoadedFlag] at h2
  subst h1; subst h2
  by_cases hb : (ad &&& 0x3C000) >>> 14 = b <;> simp [m0ISR, hb]

lemma m0_clock_mid (b : Nat) (r : Nat → Nat) (s : Tms6100State)
    (h1 : s.readDataActive = true) (h2 : s.bankActiveFlag = true)
    (h3 : s.currentBit < 7) :
    m0ISR b r s =
      ({ s with add8InputFlag := false, currentBit := s.currentBit + 1 },
       (if s.add8InputFlag then [BusEvent.setAdd8Output] else []) ++
       [BusEvent.driveBit (s.currentByte.testBit s.currentBit)]) := by
  obtain ⟨ad, bs, ln, vf, rd, cb, cB, ai, ba⟩ := s
  simp only [Tms6100State.readDataActive] at h1
  simp only [Tms6100State.bankActiveFlag] at h2
  simp only [Tms6100State.currentBit] at h3
  subst h1; subst h2
  have hmod : (cb + 1) % UINT8_MOD = cb + 1 := by
    apply Nat.mod_eq_of_lt; simp [UINT8_MOD]; omega
  cases ai <;>
    simp [m0ISR, hmod, driveBit_val, Nat.not_lt.2 (by omega : cb + 1 ≤ 7)]

lemma m0_clock_last (b : Nat) (r : Nat → Nat) (s : Tms6100State)
    (h1 : s.readDataActive = true) (h2 : s.bankActiveFlag = true)
    (h3 : s.currentBit = 7) :
    m0ISR b r s =
      (if ((s.address + 1) % UINT32_MOD &&& 0x3C000) >>> 14 = b then
        { s with add8InputFlag := false, currentBit := 0,
                 address := (s.address + 1) % UINT32_MOD,
                 currentByte := r ((s.address + 1) % UINT32_MOD &&& 0x3FFF),
                 bankActiveFlag := true }
       else
        { s with add8InputFlag := false, currentBit := 0,
                 address := (s.address + 1) % UINT32_MOD,
                 currentByte := 0xFF, bankActiveFlag := false },
       (if s.add8InputFlag then [BusEvent.setAdd8Output] else []) ++
       [BusEvent.driveBit (s.currentByte.testBit 7)]) := by
  obtain ⟨ad, bs, ln, vf, rd, cb, cB, ai, ba⟩ := s
  simp only [Tms6100State.readDataActive] at h1
  simp only [Tms6100State.bankActiveFlag] at h2
  simp only [Tms6100State.currentBit] at h3
  subst h1; subst h2; subst h3
  by_cases hb : ((ad + 1) % UINT32_MOD &&& 0x3C000) >>> 14 = b <;>
    cases ai <;> simp [m0ISR, driveBit_val, driveBit_val128, hb, UINT8_MOD]

lemma range_map_shift (f : Nat → Bool) (c k : Nat) :
    f c :: (List.range k).map (fun j => f (c + 1 + j))
      = (List.range (k + 1)).map (fun j => f (c + j)) := by
  rw [List.range_succ_eq_map, List.map_cons, List.map_map]
  have h : ((fun j => f (c + j)) ∘ Nat.succ) = (fun j => f (c + 1 + j)) := by
    funext j
    simp only [Function.comp]
    congr 1
    omega
  rw [h]
  simp

lemma m0_run_bits (b : Nat) (r : Nat → Nat) (k : Nat) (s : Tms6100State)
    (h1 : s.readDataActive = true) (h2 : s.bankActiveFlag = true)
    (hk : s.currentBit + k ≤ 8) :
    driveBits (m0Pulses b r k s).2
      = (List.range k).map (fun j => s.currentByte.testBit (s.currentBit + j)) := by
  induction k generalizing s with
  | zero => simp [m0Pulses, driveBits]
  | succ k ih =>
    rcases Nat.lt_or_ge s.currentBit 7 with hc | hc
    · rw [m0Pulses]
      rw [m0_clock_mid b r s h1 h2 hc]
      have hstep := ih { s with add8InputFlag := false, currentBit := s.currentBit + 1 }
        h1 h2 (by simp; omega)
      simp only [driveBits, List.filterMap_append] at hstep ⊢
      rw [hstep]
      rw [← range_map_shift (fun i => s.currentByte.testBit i) s.currentBit k]
      cases hai : s.add8InputFlag <;> simp [driveBits]
    · have hc7 : s.currentBit = 7 := by omega
      have hk0 : k = 0 := by omega
      subst hk0
      rw [m0Pulses]
      rw [m0_clock_last b r s h1 h2 hc7]
      cases hai : s.add8InputFlag <;>
        by_cases hb : ((s.address + 1) % UINT32_MOD &&& 0x3C000) >>> 14 = b <;>
          simp [m0Pulses, driveBits, hb, hc7, List.range_succ]

lemma m0_run_outbank (b : Nat) (r : Nat → Nat) (k : Nat) (s : Tms6100State)
    (h1 : s.readDataActive = true) (h2 : s.bankActiveFlag = false)
    (h4 : s.add8InputFlag = true)
    (hk : s.currentBit + k ≤ 8) :
    (m0Pulses b r k s).2 = [] := by
  induction k generalizing s with
  | zero => simp [m0Pulses]
  | succ k ih =>
    rcases Nat.lt_or_ge s.currentBit 7 with hc | hc
    · have hstep : m0ISR b r s = ({ s with currentBit := s.currentBit + 1 }, []) := by
        obtain ⟨ad, bs, ln, vf, rd, cb, cB, ai, ba⟩ := s
        simp only [Tms6100State.readDataActive] at h1
        simp only [Tms6100State.bankActiveFlag] at h2
        simp only [Tms6100State.add8InputFlag] at h4
        simp only [Tms6100State.currentBit] at hc
        subst h1; subst h2; subst h4
        have hmod : (cb + 1) % UINT8_MOD = cb + 1 := by
          apply Nat.mod_eq_of_lt; simp [UINT8_MOD]; omega
        simp [m0ISR, hmod, Nat.not_lt.2 (by omega : cb + 1 ≤ 7)]
      have hrest := ih { s with currentBit := s.currentBit + 1 } h1 h2 h4 (by simp; omega)
      rw [m0Pulses, hstep]
      simpa using hrest
    · have hc7 : s.currentBit = 7 := by omega
      have hk0 : k = 0 := by omega
      subst hk0
      have hstep : (m0ISR b r s).2 = [] := by
        obtain ⟨ad, bs, ln, vf, rd, cb, cB, ai, ba⟩ := s
        simp only [Tms6100State.readDataActive] at h1
        simp only [Tms6100State.bankActiveFlag] at h2
        simp only [Tms6100State.add8InputFlag] at h4
        subst h1; subst h2; subst h4
        simp [m0ISR]
      simp [m0Pulses, hstep]

/-!
## Claim theorems
-/

/-- C1: For every sequence of 5 LOAD ADDRESS events carrying nibbles n0..n4
(4-bit each), starting from a state with `loadAddressNibble = 0`, after the
5th event the address register equals
`n0 ||| n1<<4 ||| n2<<8 ||| n3<<12 ||| n4<<16` masked to its low 18 bits,
`validAddressLoadedFlag` is true, `loadAddressNibble` is back to 0, and
`bankSelectNumber` equals bits 14..17 of the unmasked 20-bit accumulation. -/
theorem loadAddress_five_nibble_accumulation (s : Tms6100State)
    (n0 n1 n2 n3 n4 : Nat) (h : s.loadAddressNibble = 0)
    (h0 : n0 < 16) (h1 : n1 < 16) (h2 : n2 < 16) (h3 : n3 < 16) (h4 : n4 < 16) :
    (m1LoadSeq [n0, n1, n2, n3, n4] s).address
      = (n0 ||| n1 <<< 4 ||| n2 <<< 8 ||| n3 <<< 12 ||| n4 <<< 16) % 2 ^ 18
    ∧ (m1LoadSeq [n0, n1, n2, n3, n4] s).validAddressLoadedFlag = true
    ∧ (m1LoadSeq [n0, n1, n2, n3, n4] s).loadAddressNibble = 0
    ∧ (m1LoadSeq [n0, n1, n2, n3, n4] s).bankSelectNumber
      = (n0 ||| n1 <<< 4 ||| n2 <<< 8 ||| n3 <<< 12 ||| n4 <<< 16) / 2 ^ 14 % 2 ^ 4 := by
  have e : m1LoadSeq [n0, n1, n2, n3, n4] s
      = m1Load n4 (m1Load n3 (m1Load n2 (m1Load n1 (m1Load n0 s)))) := rfl
  rw [e, m1Load_idx0 n0 h0 s h]
  rw [m1Load_idx1 n1 h1 _ rfl]
  rw [m1Load_idx2 n2 h2 _ rfl]
  rw [m1Load_idx3 n3 h3 _ rfl]
  rw [m1Load_idx4 n4 h4 _ rfl]
  refine ⟨?_, rfl, rfl, ?_⟩
  · simp [and_3FFFF_eq_mod]
  · simp [bank_bits]

/-- Witness for C1 at the concrete nibble sequence 1,2,3,4,5 from the
power-up state. -/
theorem loadAddress_five_nibble_accumulation_witness :
    initialState.loadAddressNibble = 0
    ∧ (m1LoadSeq [1, 2, 3, 4, 5] initialState).address
        = ((1 : Nat) ||| 2 <<< 4 ||| 3 <<< 8 ||| 4 <<< 12 ||| 5 <<< 16) % 2 ^ 18 :=
  ⟨rfl, (loadAddress_five_nibble_accumulation initialState 1 2 3 4 5 rfl
      (by decide) (by decide) (by decide) (by decide) (by decide)).1⟩

/-- C2: For every state, a single LOAD ADDRESS event leaves the state with
`readDataActive = false` and `bankActiveFlag = false` and the data line
released to input; the cancellation is unconditional on every invocation of
the address-load handler. -/
theorem loadAddress_cancels_read_session (a1 a2 a4 a8 : Bool) (s : Tms6100State) :
    (m1ISR a1 a2 a4 a8 s).1.readDataActive = false
    ∧ (m1ISR a1 a2 a4 a8 s).1.bankActiveFlag = false
    ∧ (m1ISR a1 a2 a4 a8 s).1.add8InputFlag = true
    ∧ (m1ISR a1 a2 a4 a8 s).2
        = if s.add8InputFlag then [] else [BusEvent.setAdd8Input] := by
  obtain ⟨ad, bs, ln, vf, rd, cb, cB, ai, ba⟩ := s
  cases ai <;> simp [m1ISR, UINT8_MOD] <;> split_ifs <;> simp

/-- C4: For every state with `readDataActive = false` and
`validAddressLoadedFlag = false`, a READ DATA pulse performs no bus activity
(no drive and no direction change) and always sets `address = 0` and
`loadAddressNibble = 0`. -/
theorem dummy_read_resets (b : Nat) (r : Nat → Nat) (s : Tms6100State)
    (h1 : s.readDataActive = false) (h2 : s.validAddressLoadedFlag = false) :
    m0ISR b r s = ({ s with address := 0, loadAddressNibble := 0 }, []) := by
  obtain ⟨ad, bs, ln, vf, rd, cb, cB, ai, ba⟩ := s
  simp only [Tms6100State.readDataActive] at h1
  simp only [Tms6100State.validAddressLoadedFlag] at h2
  subst h1; subst h2
  simp [m0ISR]

/-- Witness for C4 at the power-up state. -/
theorem dummy_read_resets_witness :
    initialState.readDataActive = false
    ∧ initialState.validAddressLoadedFlag = false
    ∧ m0ISR 0 sampleRead initialState
        = ({ initialState with address := 0, loadAddressNibble := 0 }, []) :=
  ⟨rfl, rfl, dummy_read_resets 0 sampleRead initialState rfl rfl⟩

/-- C3: For every state with a valid loaded address whose bank equals the
configured bank, the start-of-transfer READ DATA pulse followed by 8 clock
pulses drives onto the bus, in order, bits 0 through 7 (LSB first) of the byte
fetched by the bank data provider at the 14-bit offset; in particular the
first clocked bit equals bit 0 of that byte. -/
theorem inbank_read_emits_byte_lsb_first (b : Nat) (r : Nat → Nat)
    (s : Tms6100State) (h1 : s.readDataActive = false)
    (h2 : s.validAddressLoadedFlag = true)
    (h3 : (s.address &&& 0x3C000) >>> 14 = b) :
    driveBits (m0Pulses b r 8 (m0ISR b r s).1).2
      = (List.range 8).map (fun j => (r (s.address &&& 0x3FFF)).testBit j)
    ∧ (driveBits (m0Pulses b r 8 (m0ISR b r s).1).2).head?
      = some ((r (s.address &&& 0x3FFF)).testBit 0) := by
  have ht : (m0ISR b r s).1
      = { s with readDataActive := true, currentByte := r (s.address &&& 0x3FFF),
                 currentBit := 0, bankActiveFlag := true } := by
    rw [m0_start b r s h1 h2]
    simp [h3]
  have hmain : driveBits (m0Pulses b r 8 (m0ISR b r s).1).2
      = (List.range 8).map (fun j => (r (s.address &&& 0x3FFF)).testBit j) := by
    rw [ht]
    rw [m0_run_bits b r 8 _ rfl rfl (by simp)]
    simp
  refine ⟨hmain, ?_⟩
  rw [hmain]
  simp [List.range_succ]

/-- Witness for C3: configured bank 0, loaded address 5, sample data table. -/
theorem inbank_read_emits_byte_lsb_first_witness :
    c3WitState.readDataActive = false
    ∧ c3WitState.validAddressLoadedFlag = true
    ∧ (c3WitState.address &&& 0x3C000) >>> 14 = 0
    ∧ driveBits (m0Pulses 0 sampleRead 8 (m0ISR 0 sampleRead c3WitState).1).2
        = (List.range 8).map (fun j => (sampleRead (c3WitState.address &&& 0x3FFF)).testBit j) :=
  ⟨rfl, rfl, by decide,
    (inbank_read_emits_byte_lsb_first 0 sampleRead c3WitState rfl rfl (by decide)).1⟩

/-- C9: The start-of-transfer READ DATA pulse (`readDataActive = false`,
`validAddressLoadedFlag = true`) never changes the data-line direction and
never drives a bit: it only sets `readDataActive`, fetches `currentByte`,
resets `currentBit`, and updates `bankActiveFlag`; the switch of the data line
to output and the first data bit occur only on the first subsequent clock
pulse. -/
theorem start_pulse_no_bus_activity (b : Nat) (r : Nat → Nat) (s : Tms6100State)
    (h1 : s.readDataActive = false) (h2 : s.validAddressLoadedFlag = true) :
    (m0ISR b r s).2 = []
    ∧ (m0ISR b r s).1.add8InputFlag = s.add8InputFlag
    ∧ (m0ISR b r s).1.readDataActive = true
    ∧ (m0ISR b r s).1.currentBit = 0
    ∧ (m0ISR b r s).1.currentByte
        = (if (s.address &&& 0x3C000) >>> 14 = b then r (s.address &&& 0x3FFF) else 0xFF)
    ∧ (m0ISR b r s).1.bankActiveFlag = decide ((s.address &&& 0x3C000) >>> 14 = b)
    ∧ ((s.address &&& 0x3C000) >>> 14 = b → s.add8InputFlag = true →
        (m0ISR b r (m0ISR b r s).1).2
          = [BusEvent.setAdd8Output,
             BusEvent.driveBit ((r (s.address &&& 0x3FFF)).testBit 0)]) := by
  have hs := m0_start b r s h1 h2
  by_cases hb : (s.address &&& 0x3C000) >>> 14 = b
  · have ht : (m0ISR b r s).1
        = { s with readDataActive := true, currentByte := r (s.address &&& 0x3FFF),
                   currentBit := 0, bankActiveFlag := true } := by
      rw [hs]; simp [hb]
    refine ⟨by rw [hs], by rw [ht], by rw [ht], by rw [ht],
      by rw [ht]; simp [hb], by rw [ht]; simp [hb], ?_⟩
    intro _ hai
    rw [ht]
    rw [m0_clock_mid b r _ rfl rfl (by simp)]
    simp [hai]
  · have ht : (m0ISR b r s).1
        = { s with readDataActive := true, currentByte := 0xFF,
                   currentBit := 0, bankActiveFlag := false } := by
      rw [hs]; simp [hb]
    refine ⟨by rw [hs], by rw [ht], by rw [ht], by rw [ht],
      by rw [ht]; simp [hb], by rw [ht]; simp [hb], ?_⟩
    intro hcon
    exact absurd hcon hb

/-- Witness for C9 at the concrete in-bank state `c3WitState`. -/
theorem start_pulse_no_bus_activity_witness :
    c3WitState.readDataActive = false
    ∧ c3WitState.validAddressLoadedFlag = true
    ∧ (m0ISR 0 sampleRead c3WitState).2 = [] :=
  ⟨rfl, rfl, (start_pulse_no_bus_activity 0 sampleRead c3WitState rfl rfl).1⟩

/-- C6: For every state with a valid loaded address whose bank bits differ
from the configured bank and the bus released, the start-of-transfer READ DATA
pulse sets `bankActiveFlag = false` and `currentByte = 0xFF` with the bus
still released, and during the following 8 clock pulses the device never
drives the data line (no bus operations at all). -/
theorem bank_mismatch_transfer_silent (b : Nat) (r : Nat → Nat)
    (s : Tms6100State) (h1 : s.readDataActive = false)
    (h2 : s.validAddressLoadedFlag = true)
    (h3 : (s.address &&& 0x3C000) >>> 14 ≠ b) (h4 : s.add8InputFlag = true) :
    (m0ISR b r s).1.bankActiveFlag = false
    ∧ (m0ISR b r s).1.currentByte = 0xFF
    ∧ (m0ISR b r s).1.add8InputFlag = true
    ∧ (m0ISR b r s).2 = []
    ∧ (m0Pulses b r 8 (m0ISR b r s).1).2 = [] := by
  have hs := m0_start b r s h1 h2
  have ht : (m0ISR b r s).1
      = { s with readDataActive := true, currentByte := 0xFF,
                 currentBit := 0, bankActiveFlag := false } := by
    rw [hs]; simp [h3]
  refine ⟨by rw [ht], by rw [ht], by rw [ht]; exact h4, by rw [hs], ?_⟩
  rw [ht]
  exact m0_run_outbank b r 8 _ rfl rfl h4 (by simp)

/-- Witness for C6: configured bank 2, loaded address in bank 5. -/
theorem bank_mismatch_transfer_silent_witness :
    c6WitState.readDataActive = false
    ∧ c6WitState.validAddressLoadedFlag = true
    ∧ (c6WitState.address &&& 0x3C000) >>> 14 ≠ 2
    ∧ c6WitState.add8InputFlag = true
    ∧ (m0ISR 2 sampleRead c6WitState).1.currentByte = 0xFF
    ∧ (m0Pulses 2 sampleRead 8 (m0ISR 2 sampleRead c6WitState).1).2 = [] :=
  ⟨rfl, rfl, by decide, rfl,
    (bank_mismatch_transfer_silent 2 sampleRead c6WitState rfl rfl (by decide) rfl).2.1,
    (bank_mismatch_transfer_silent 2 sampleRead c6WitState rfl rfl (by decide) rfl).2.2.2.2⟩

/-- C5 counterexample: at the concrete state `c5CexState` (in-bank session,
8th bit of the byte at the last address of bank 0, configured bank 0), the
boundary-crossing pulse does NOT release the data line to input within that
same pulse: ADD8 stays an output and no release operation is emitted. -/
theorem byte_boundary_not_released_same_pulse :
    ¬((m0ISR 0 sampleRead c5CexState).1.add8InputFlag = true
      ∨ BusEvent.setAdd8Input ∈ (m0ISR 0 sampleRead c5CexState).2) := by
  decide

/-- C5 amended: for every active in-bank read session, the clock pulse that
emits the 8th bit increments `address` by exactly 1 and, if the incremented
address's bank bits no longer equal the configured bank, `bankActiveFlag`
becomes false within that same pulse; the data line, however, is released to
input only at the start of the NEXT clock pulse. -/
theorem byte_boundary_crossing_releases_next_pulse (b : Nat) (r : Nat → Nat)
    (s : Tms6100State) (h1 : s.readDataActive = true)
    (h2 : s.bankActiveFlag = true) (h3 : s.currentBit = 7)
    (h4 : s.address + 1 < UINT32_MOD)
    (h5 : ((s.address + 1) &&& 0x3C000) >>> 14 ≠ b) :
    (m0ISR b r s).1.address = s.address + 1
    ∧ (m0ISR b r s).1.bankActiveFlag = false
    ∧ (m0ISR b r s).1.add8InputFlag = false
    ∧ (m0ISR b r (m0ISR b r s).1).2 = [BusEvent.setAdd8Input]
    ∧ (m0ISR b r (m0ISR b r s).1).1.add8InputFlag = true := by
  have hmod : (s.address + 1) % UINT32_MOD = s.address + 1 := Nat.mod_eq_of_lt h4
  have hs := m0_clock_last b r s h1 h2 h3
  rw [hmod] at hs
  have ht : (m0ISR b r s).1
      = { s with add8InputFlag := false, currentBit := 0,
                 address := s.address + 1, currentByte := 0xFF,
                 bankActiveFlag := false } := by
    rw [hs]; simp [h5]
  refine ⟨by rw [ht], by rw [ht], by rw [ht], ?_, ?_⟩ <;>
    · rw [ht]
      simp [m0ISR, h1, UINT8_MOD]

/-- Witness for the amended C5 at the concrete state `c5CexState`. -/
theorem byte_boundary_crossing_releases_next_pulse_witness :
    c5CexState.currentBit = 7
    ∧ (m0ISR 0 sampleRead c5CexState).1.address = c5CexState.address + 1
    ∧ (m0ISR 0 sampleRead (m0ISR 0 sampleRead c5CexState).1).2
        = [BusEvent.setAdd8Input] :=
  ⟨rfl,
   (byte_boundary_crossing_releases_next_pulse 0 sampleRead c5CexState
      rfl rfl rfl (by norm_num [c5CexState, UINT32_MOD]) (by decide)).1,
   (byte_boundary_crossing_releases_next_pulse 0 sampleRead c5CexState
      rfl rfl rfl (by norm_num [c5CexState, UINT32_MOD]) (by decide)).2.2.2.1⟩

/-- C7: the byte-boundary address increment is not masked to 18 bits: the
pulse that completes a byte yields exactly `address + 1` (so from `0x3FFFF`
the address grows to `0x40000`, beyond 18 bits); the read-data handler only
ever keeps the address, increments it modulo 2^32, or zeroes it — it never
applies the 18-bit mask — while the completion of a 5-nibble LOAD ADDRESS
sequence does truncate the address to at most `0x3FFFF`. -/
theorem address_increment_unmasked (b : Nat) (r : Nat → Nat) (s : Tms6100State)
    (h1 : s.readDataActive = true) (h2 : s.currentBit = 7)
    (h3 : s.address + 1 < UINT32_MOD) :
    (m0ISR b r s).1.address = s.address + 1
    ∧ (s.address = 0x3FFFF → (m0ISR b r s).1.address = 0x40000)
    ∧ (∀ u : Tms6100State, (m0ISR b r u).1.address = u.address
        ∨ (m0ISR b r u).1.address = (u.address + 1) % UINT32_MOD
        ∨ (m0ISR b r u).1.address = 0)
    ∧ (∀ (a1 a2 a4 a8 : Bool) (u : Tms6100State), u.loadAddressNibble = 4 →
        (m1ISR a1 a2 a4 a8 u).1.address ≤ 0x3FFFF) := by
  have key : (m0ISR b r s).1.address = s.address + 1 := by
    obtain ⟨ad, bs, ln, vf, rd, cb, cB, ai, ba⟩ := s
    simp only [Tms6100State.readDataActive] at h1
    simp only [Tms6100State.currentBit] at h2
    simp only [Tms6100State.address] at h3
    subst h1; subst h2
    have hmod : (ad + 1) % UINT32_MOD = ad + 1 := Nat.mod_eq_of_lt h3
    cases ba <;> cases ai <;>
      (simp [m0ISR, UINT8_MOD, hmod]; split_ifs <;> simp)
  refine ⟨key, fun ha => by rw [key, ha], ?_, ?_⟩
  · intro u
    obtain ⟨ad, bs, ln, vf, rd, cb, cB, ai, ba⟩ := u
    cases rd
    · cases vf <;> first
        | (simp [m0ISR]; split_ifs <;> simp)
        | simp [m0ISR]
    · cases ba <;> cases ai <;>
        (simp [m0ISR, UINT8_MOD]; split_ifs <;> simp)
  · intro a1 a2 a4 a8 u hu
    obtain ⟨ad, bs, ln, vf, rd, cb, cB, ai, ba⟩ := u
    simp only [Tms6100State.loadAddressNibble] at hu
    subst hu
    cases ai <;>
      · simp [m1ISR, UINT8_MOD]
        exact Nat.and_le_right

/-- Witness for C7: from the in-bank mid-session state at `address = 0x3FFFF`,
the byte-completing pulse moves the address register to `0x40000`, past the
18-bit field. -/
theorem address_increment_unmasked_witness :
    c7WitState.readDataActive = true
    ∧ c7WitState.currentBit = 7
    ∧ (m0ISR 0 sampleRead c7WitState).1.address = 0x40000
    ∧ 0x3FFFF < (m0ISR 0 sampleRead c7WitState).1.address :=
  ⟨rfl, rfl,
   (address_increment_unmasked 0 sampleRead c7WitState rfl rfl
      (by norm_num [c7WitState, UINT32_MOD])).2.1 rfl,
   by rw [(address_increment_unmasked 0 sampleRead c7WitState rfl rfl
      (by norm_num [c7WitState, UINT32_MOD])).2.1 rfl]; norm_num⟩

/-- C8 counterexample: loading the nibbles `[0,0,0,8,0]` from the power-up
state leaves the address register at `0x8000`, not `0x00000`: the 18-bit mask
`& 0x3FFFF` keeps bit 15, so the claimed final address value 0 is wrong. -/
theorem bank2_scenario_address_not_zero :
    (m1LoadSeq [0, 0, 0, 8, 0] initialState).address ≠ 0 := by
  decide

/-- C8 amended: for a device configured with bank 2, loading the 5 nibbles
`[0,0,0,8,0]` accumulates the 20-bit value `0x08000`, sets
`bankSelectNumber = 2` (computed before masking), and leaves the address
register at `0x08000` after the 18-bit mask (its 14-bit in-bank offset is 0);
the subsequent start pulse sets `bankActiveFlag = true` and
`currentByte = read 0`, and eight clock pulses emit the bits of `read 0`
LSB-first. -/
theorem bank2_scenario_load_and_transfer (r : Nat → Nat) :
    (m1LoadSeq [0, 0, 0, 8] initialState).address = 0x8000
    ∧ (m1LoadSeq [0, 0, 0, 8, 0] initialState).address = 0x8000
    ∧ (m1LoadSeq [0, 0, 0, 8, 0] initialState).address &&& 0x3FFF = 0
    ∧ (m1LoadSeq [0, 0, 0, 8, 0] initialState).bankSelectNumber = 2
    ∧ (m1LoadSeq [0, 0, 0, 8, 0] initialState).validAddressLoadedFlag = true
    ∧ (m0ISR 2 r (m1LoadSeq [0, 0, 0, 8, 0] initialState)).1.bankActiveFlag = true
    ∧ (m0ISR 2 r (m1LoadSeq [0, 0, 0, 8, 0] initialState)).1.currentByte = r 0
    ∧ driveBits
        (m0Pulses 2 r 8 (m0ISR 2 r (m1LoadSeq [0, 0, 0, 8, 0] initialState)).1).2
      = (List.range 8).map (fun j => (r 0).testBit j) := by
  have hT : m1LoadSeq [0, 0, 0, 8, 0] initialState
      = { address := 0x8000, bankSelectNumber := 2, loadAddressNibble := 0,
          validAddressLoadedFlag := true, readDataActive := false,
          currentBit := 0, currentByte := 0, add8InputFlag := true,
          bankActiveFlag := false } := by decide
  have hbank : ((0x8000 : Nat) &&& 0x3C000) >>> 14 = 2 := by decide
  have hoff : (0x8000 : Nat) &&& 0x3FFF = 0 := by decide
  have hu : (m0ISR 2 r (m1LoadSeq [0, 0, 0, 8, 0] initialState)).1
      = { address := 0x8000, bankSelectNumber := 2, loadAddressNibble := 0,
          validAddressLoadedFlag := true, readDataActive := true,
          currentBit := 0, currentByte := r 0, add8InputFlag := true,
          bankActiveFlag := true } := by
    rw [hT, m0_start 2 r _ rfl rfl]
    simp [hbank, hoff]
  refine ⟨by decide, by rw [hT], by rw [hT]; exact hoff, by rw [hT], by rw [hT],
    by rw [hu], by rw [hu], ?_⟩
  rw [hu]
  rw [m0_run_bits 2 r 8 _ rfl rfl (by simp)]
  simp

/-- C10: the invariant `loadAddressNibble ∈ {0..4}` holds in the initial
state and is preserved by every invocation of both handlers: the index is
incremented once per LOAD ADDRESS event, wraps to 0 immediately after the 5th
nibble is consumed, and the dummy-read reset also sets it to 0. -/
theorem loadNibbleIndex_invariant (a1 a2 a4 a8 : Bool) (b : Nat)
    (r : Nat → Nat) (s : Tms6100State) (h : s.loadAddressNibble ≤ 4) :
    initialState.loadAddressNibble = 0
    ∧ (m1ISR a1 a2 a4 a8 s).1.loadAddressNibble ≤ 4
    ∧ (m0ISR b r s).1.loadAddressNibble ≤ 4
    ∧ (s.loadAddressNibble < 4 →
        (m1ISR a1 a2 a4 a8 s).1.loadAddressNibble = s.loadAddressNibble + 1)
    ∧ (s.loadAddressNibble = 4 →
        (m1ISR a1 a2 a4 a8 s).1.loadAddressNibble = 0)
    ∧ (s.readDataActive = false → s.validAddressLoadedFlag = false →
        (m0ISR b r s).1.loadAddressNibble = 0) := by
  obtain ⟨ad, bs, ln, vf, rd, cb, cB, ai, ba⟩ := s
  simp only [Tms6100State.loadAddressNibble] at h
  refine ⟨rfl, ?_, ?_, ?_, ?_, ?_⟩
  · interval_cases ln <;> cases ai <;> simp [m1ISR, UINT8_MOD]
  · cases rd <;> cases vf <;> cases ba <;> cases ai <;>
      simp [m0ISR, UINT8_MOD] <;> split_ifs <;> simp [h]
  · intro hlt
    simp only [Tms6100State.loadAddressNibble] at hlt ⊢
    interval_cases ln <;> cases ai <;> simp [m1ISR, UINT8_MOD]
  · intro heq
    simp only [Tms6100State.loadAddressNibble] at heq
    subst heq
    cases ai <;> simp [m1ISR, UINT8_MOD]
  · intro hrd hvf
    simp only [Tms6100State.readDataActive] at hrd
    simp only [Tms6100State.validAddressLoadedFlag] at hvf
    subst hrd; subst hvf
    simp [m0ISR]

/-- Witness for C10 at the power-up state. -/
theorem loadNibbleIndex_invariant_witness :
    initialState.loadAddressNibble ≤ 4
    ∧ (m1ISR true false false false initialState).1.loadAddressNibble ≤ 4
    ∧ (m0ISR 0 sampleRead initialState).1.loadAddressNibble ≤ 4 :=
  ⟨by decide,
   (loadNibbleIndex_invariant true false false false 0 sampleRead initialState
      (by decide)).2.1,
   (loadNibbleIndex_invariant true false false false 0 sampleRead initialState
      (by decide)).2.2.1⟩
